import Mathlib

/-!
Verification of the trading-console engine (checklist scoring, position
sizing, PnL / R computation, KPI aggregation) against its specification.

The JavaScript/TypeScript source is embedded shallowly: JS numbers are
modelled as exact rationals (`ℚ`), `Math.floor` as `Int.floor`,
`Math.round` as floor of `x + 1/2` (JS rounds half toward +∞), the JS
`Infinity` value produced by the KPI ratios as an explicit constructor of
`JSNum`, and the JS falsy-number idiom `Number(x || d)` as `jsOr`.
-/

namespace Trading

/-- JS `Math.round`: rounds half toward positive infinity. -/
def jsRound (q : ℚ) : ℤ := ⌊q + 1/2⌋

/-- JS `Number(x || d)` on numbers: `d` when `x` is falsy (zero), else `x`. -/
def jsOr (x d : ℚ) : ℚ := if x = 0 then d else x

theorem jsOr_zero (x : ℚ) : jsOr x 0 = x := by
  unfold jsOr; split <;> simp_all

/-- A JS number that may be `Infinity` (used by the KPI ratios). -/
inductive JSNum where
  | fin : ℚ → JSNum
  | inf : JSNum
deriving DecidableEq

inductive ModelType where
  | trend
  | rebound
deriving DecidableEq

inductive Side where
  | long
  | short
deriving DecidableEq

inductive Status where
  | «open»
  | closed
deriving DecidableEq

/-- A weighted checklist item (`{ k, t, w }` in the source; the UI label
`t` is irrelevant to scoring and omitted). -/
structure ChecklistItem where
  k : String
  w : ℚ
deriving DecidableEq

/-- The `TREND` item list from the source. -/
def TREND : List ChecklistItem :=
  [⟨"maBull", 20⟩, ⟨"aboveMA20", 15⟩, ⟨"weeklyUp", 15⟩, ⟨"breakout", 15⟩,
   ⟨"breakoutVol", 15⟩, ⟨"pullbackVol", 10⟩, ⟨"momentumOk", 10⟩]

/-- The `REBOUND` item list from the source. -/
def REBOUND : List ChecklistItem :=
  [⟨"drawdown30", 20⟩, ⟨"support", 20⟩, ⟨"valueOk", 10⟩, ⟨"stopK", 20⟩,
   ⟨"firstVolUp", 15⟩, ⟨"macdTurn", 15⟩]

/-- `model === "trend" ? TREND : REBOUND`. -/
def modelItems : ModelType → List ChecklistItem
  | .trend => TREND
  | .rebound => REBOUND

/-- A checklist state: JS object lookup `c[k]`, with a missing key reading
as `undefined` (falsy), is modelled as a total function into `Bool`. -/
abbrev Checklist := String → Bool

/-- `items.reduce((s, x) => s + x.w, 0)`. -/
def totalWeight (m : ModelType) : ℚ := ((modelItems m).map (·.w)).sum

/-- `items.reduce((s, x) => s + (c[x.k] ? x.w : 0), 0)`. -/
def gotWeight (m : ModelType) (c : Checklist) : ℚ :=
  ((modelItems m).map (fun it => if c it.k then it.w else 0)).sum

/-- `score` from the source: `Math.round((got / total) * 100)`. -/
def score (m : ModelType) (c : Checklist) : ℤ :=
  jsRound ((gotWeight m c / totalWeight m) * 100)

/-- The result record of `calcSizing`. -/
structure SizingResult where
  riskPer : ℚ
  riskMoney : ℚ
  size : ℚ
  posPct : ℚ
deriving DecidableEq

/-- `calcSizing` from the cost-aware source variant: price risk by side,
per-unit transaction-cost risk, risk budget, lot-rounded size and the
resulting position percentage. -/
def calcSizing (equity maxRiskPct entry stop lotSize : ℚ) (side : Side)
    (feePct exitFeePct slippage : ℚ) : SizingResult :=
  let e := jsOr entry 0
  let s := jsOr stop 0
  let lot := max 1 (jsOr lotSize 1)
  let fee := jsOr feePct 0
  let exitFee := jsOr exitFeePct 0
  let slip := jsOr slippage 0
  let priceRisk := if side = .long then e - s else s - e
  let costRisk := e * (fee / 100) + s * (fee / 100) + s * (exitFee / 100) + 2 * slip
  let riskPer := max 0 (priceRisk + costRisk)
  let riskMoney := equity * (maxRiskPct / 100)
  let rawSize : ℤ := if 0 < riskPer then ⌊riskMoney / riskPer⌋ else 0
  let size : ℚ := (⌊(rawSize : ℚ) / lot⌋ : ℤ) * lot
  let posPct := if 0 < equity then (size * e) / equity * 100 else 0
  ⟨riskPer, riskMoney, size, posPct⟩

/-- `calcCosts` from the cost-aware source variant. -/
def calcCosts (entry exit size feePct exitFeePct slippage : ℚ) : ℚ :=
  let notionalEntry := entry * size
  let notionalExit := exit * size
  let fee := (notionalEntry + notionalExit) * (feePct / 100)
  let exitFee := notionalExit * (exitFeePct / 100)
  let slip := |slippage| * size * 2
  fee + exitFee + slip

/-- `calcPnL` from the cost-aware source variant. -/
def calcPnL (entry exit size : ℚ) (side : Side)
    (feePct exitFeePct slippage : ℚ) : ℚ :=
  if entry = 0 ∨ exit = 0 ∨ size = 0 then 0
  else
    let gross := if side = .long then (exit - entry) * size else (entry - exit) * size
    gross - calcCosts entry exit size feePct exitFeePct slippage

/-- `calcR` from the cost-aware source variant. -/
def calcR (entry stop exit : ℚ) (side : Side)
    (feePct exitFeePct slippage : ℚ) : ℚ :=
  let riskPer := if side = .long then entry - stop else stop - entry
  if riskPer = 0 ∨ riskPer ≤ 0 then 0
  else calcPnL entry exit 1 side feePct exitFeePct slippage / riskPer

/-- The fields of the simplified (long-only) variant's `Trade` record that
the engine functions read. -/
structure PTrade where
  entry : ℚ
  stop : ℚ
  exit : ℚ
  sizeShares : ℚ
  pnl : ℚ
  rMultiple : ℚ
  status : Status
  updatedAt : ℤ
deriving DecidableEq

/-- `calcPnL` from the simplified long-only variant:
`(exit - entry) * size`, zero when entry/exit/size is falsy. -/
def pageCalcPnL (t : PTrade) : ℚ :=
  if t.entry = 0 ∨ t.exit = 0 ∨ t.sizeShares = 0 then 0
  else (t.exit - t.entry) * t.sizeShares

/-- `calcRMultiple` from the simplified long-only variant. -/
def pageCalcRMultiple (t : PTrade) : ℚ :=
  if t.entry = 0 ∨ t.stop = 0 ∨ t.exit = 0 ∨ t.sizeShares = 0 then 0
  else if |t.entry - t.stop| = 0 then 0
  else (t.exit - t.entry) / |t.entry - t.stop|

/-- The filter applied by `computeKPIs`:
`t.status === "closed" && Number(t.exit) > 0 && Number(t.entry) > 0 && Number(t.sizeShares) > 0`. -/
def closedFilter (t : PTrade) : Bool :=
  t.status = Status.closed ∧ 0 < t.exit ∧ 0 < t.entry ∧ 0 < t.sizeShares

/-- The stable ascending sort `.sort((a, b) => (a.updatedAt||0) - (b.updatedAt||0))`. -/
def sortClosed (l : List PTrade) : List PTrade :=
  l.insertionSort (fun a b => a.updatedAt ≤ b.updatedAt)

/-- The filtered, time-sorted closed trades of `computeKPIs`. -/
def closedOf (trades : List PTrade) : List PTrade :=
  sortClosed (trades.filter closedFilter)

def winsOf (trades : List PTrade) : List PTrade :=
  (closedOf trades).filter (fun t => 0 < t.pnl)

def lossesOf (trades : List PTrade) : List PTrade :=
  (closedOf trades).filter (fun t => t.pnl < 0)

def grossWinOf (trades : List PTrade) : ℚ :=
  ((winsOf trades).map (·.pnl)).sum

def grossLossAbsOf (trades : List PTrade) : ℚ :=
  |((lossesOf trades).map (·.pnl)).sum|

def avgWinOf (trades : List PTrade) : ℚ :=
  if (winsOf trades).length = 0 then 0
  else ((winsOf trades).map (·.pnl)).sum / (winsOf trades).length

def avgLossOf (trades : List PTrade) : ℚ :=
  if (lossesOf trades).length = 0 then 0
  else ((lossesOf trades).map (·.pnl)).sum / (lossesOf trades).length

/-- One step of the equity-curve walk: `eq += pnl; peak = max(peak, eq);
dd = peak > 0 ? (peak - eq) / peak : 0; maxDD = max(maxDD, dd)`.
The accumulator is `(eq, peak, maxDD)`. -/
def ddStep (acc : ℚ × ℚ × ℚ) (p : ℚ) : ℚ × ℚ × ℚ :=
  let eq := acc.1 + p
  let peak := max acc.2.1 eq
  let dd := if 0 < peak then (peak - eq) / peak else 0
  (eq, peak, max acc.2.2 dd)

/-- The full equity-curve walk over the closed trades' pnl values. -/
def ddRun (eq0 : ℚ) (ps : List ℚ) : ℚ × ℚ × ℚ :=
  ps.foldl ddStep (eq0, eq0, 0)

/-- A point of the equity curve (`{ i, equity }`). -/
structure CurvePoint where
  i : ℕ
  equity : ℚ
deriving DecidableEq

/-- The curve points pushed inside the walk (one per closed trade). -/
def curveFrom (eq0 : ℚ) (i0 : ℕ) : List ℚ → List CurvePoint
  | [] => []
  | p :: rest => ⟨i0, eq0 + p⟩ :: curveFrom (eq0 + p) (i0 + 1) rest

/-- The pnl values folded into the equity curve, in time order. -/
def pnlsOf (trades : List PTrade) : List ℚ :=
  (closedOf trades).map (·.pnl)

def maxDDOf (startingEquity : ℚ) (trades : List PTrade) : ℚ :=
  (ddRun (jsOr startingEquity 0) (pnlsOf trades)).2.2

def curveOf (startingEquity : ℚ) (trades : List PTrade) : List CurvePoint :=
  ⟨0, jsOr startingEquity 0⟩ :: curveFrom (jsOr startingEquity 0) 1 (pnlsOf trades)

/-- The KPI record returned by `computeKPIs`. -/
structure KPIs where
  closedCount : ℕ
  winRate : ℚ
  realizedPnl : ℚ
  avgWin : ℚ
  avgLoss : ℚ
  winLossRatio : JSNum
  profitFactor : JSNum
  avgR : ℚ
  equityCurve : List CurvePoint
  maxDrawdownPct : ℚ
deriving DecidableEq

/-- `computeKPIs` from the simplified variant (the portfolio aggregator). -/
def computeKPIs (trades : List PTrade) (startingEquity : ℚ) : KPIs :=
  { closedCount := (closedOf trades).length
    winRate :=
      if (closedOf trades).length = 0 then 0
      else ((winsOf trades).length : ℚ) / ((closedOf trades).length : ℚ)
    realizedPnl := ((closedOf trades).map (·.pnl)).sum
    avgWin := avgWinOf trades
    avgLoss := avgLossOf trades
    winLossRatio :=
      if avgLossOf trades = 0 then
        (if 0 < avgWinOf trades then JSNum.inf else JSNum.fin 0)
      else JSNum.fin |avgWinOf trades / avgLossOf trades|
    profitFactor :=
      if grossLossAbsOf trades = 0 then
        (if 0 < grossWinOf trades then JSNum.inf else JSNum.fin 0)
      else JSNum.fin (grossWinOf trades / grossLossAbsOf trades)
    avgR :=
      if (closedOf trades).length = 0 then 0
      else ((closedOf trades).map (·.rMultiple)).sum / ((closedOf trades).length : ℚ)
    equityCurve := curveOf startingEquity trades
    maxDrawdownPct := maxDDOf startingEquity trades }

/-- The global risk settings read by the cost-aware `addTrade`. -/
structure Settings where
  equity : ℚ
  maxRiskPct : ℚ
  lotSize : ℚ
deriving DecidableEq

/-- The draft-trade fields that `addTrade`'s validation and trade
construction read. -/
structure Draft where
  symbol : String
  side : Side
  model : ModelType
  entry : ℚ
  stop : ℚ
  feePct : ℚ
  exitFeePct : ℚ
  slippage : ℚ
  checklist : Checklist

/-- The persisted trade record of the cost-aware variant (fields relevant
to the engine; free-text descriptive fields omitted). -/
structure V2Trade where
  id : String
  createdAt : ℤ
  updatedAt : ℤ
  symbol : String
  model : ModelType
  side : Side
  feePct : ℚ
  exitFeePct : ℚ
  slippage : ℚ
  entry : ℚ
  stop : ℚ
  equity : ℚ
  maxRiskPct : ℚ
  lotSize : ℚ
  size : ℚ
  positionPct : ℚ
  score : ℤ
  checklist : Checklist
  status : Status

/-- Validation alert texts issued by `addTrade`. -/
def msgSymbolRequired : String := "symbol required"

def msgStopRequired : String := "stop price required"

def msgEntryRequired : String := "entry price required"

def msgShortStop : String := "short stop must be above entry"

def msgLongStop : String := "long stop must be below entry"

/-- A concrete id used when instantiating `addTrade` on sample inputs. -/
def sampleId : String := "id1"

/-- `addTrade` from the cost-aware variant. Impure bits (`Date.now()`,
`uid()`) are passed in as `now`/`newId`; the result is the new trade list
together with the validation alert, if one fired (in which case the list
is returned untouched, mirroring the early `return alert(...)`). -/
def addTrade (settings : Settings) (d : Draft) (now : ℤ) (newId : String)
    (trades : List V2Trade) : List V2Trade × Option String :=
  if d.symbol.trim = "" then (trades, some msgSymbolRequired)
  else if d.stop = 0 ∨ d.stop ≤ 0 then (trades, some msgStopRequired)
  else if d.entry = 0 ∨ d.entry ≤ 0 then (trades, some msgEntryRequired)
  else if d.side = .short ∧ d.stop ≤ d.entry then
    (trades, some msgShortStop)
  else if d.side = .long ∧ d.entry ≤ d.stop then
    (trades, some msgLongStop)
  else
    let sizing := calcSizing settings.equity settings.maxRiskPct d.entry d.stop
      settings.lotSize d.side d.feePct d.exitFeePct d.slippage
    ({ id := newId, createdAt := now, updatedAt := now,
       symbol := d.symbol.trim, model := d.model, side := d.side,
       feePct := d.feePct, exitFeePct := d.exitFeePct, slippage := d.slippage,
       entry := d.entry, stop := d.stop,
       equity := settings.equity, maxRiskPct := settings.maxRiskPct,
       lotSize := settings.lotSize,
       size := sizing.size, positionPct := sizing.posPct,
       score := score d.model d.checklist, checklist := d.checklist,
       status := Status.«open» } :: trades, none)

/-- Every drop along the walk keeps the running equity non-negative
(auxiliary predicate for the drawdown upper bound). -/
def runningNonneg : ℚ → List ℚ → Prop
  | _, [] => True
  | eq, p :: rest => 0 ≤ eq + p ∧ runningNonneg (eq + p) rest

/- ------------------------------------------------------------------ -/
/- Scorer lemmas                                                       -/
/- ------------------------------------------------------------------ -/

theorem weight_nonneg {m : ModelType} {it : ChecklistItem}
    (hit : it ∈ modelItems m) : 0 ≤ it.w := by
  cases m with
  | trend =>
    simp [modelItems, TREND] at hit
    rcases hit with rfl | rfl | rfl | rfl | rfl | rfl | rfl <;> norm_num
  | rebound =>
    simp [modelItems, REBOUND] at hit
    rcases hit with rfl | rfl | rfl | rfl | rfl | rfl <;> norm_num

theorem gotWeight_nonneg (m : ModelType) (c : Checklist) : 0 ≤ gotWeight m c := by
  apply List.sum_nonneg
  intro x hx
  rcases List.mem_map.mp hx with ⟨it, hit, rfl⟩
  split
  · exact weight_nonneg hit
  · exact le_rfl

theorem gotWeight_le (m : ModelType) (c : Checklist) :
    gotWeight m c ≤ totalWeight m := by
  apply List.sum_le_sum
  intro it hit
  split
  · exact le_rfl
  · exact weight_nonneg hit

theorem totalWeight_eq (m : ModelType) : totalWeight m = 100 := by
  cases m <;> norm_num [totalWeight, modelItems, TREND, REBOUND]

theorem jsRound_mono {a b : ℚ} (h : a ≤ b) : jsRound a ≤ jsRound b :=
  Int.floor_le_floor (by linarith)

theorem score_eq_jsRound_got (m : ModelType) (c : Checklist) :
    score m c = jsRound (gotWeight m c) := by
  rw [score, totalWeight_eq]
  congr 1
  rw [div_mul_cancel₀]
  norm_num

theorem gotWeight_congr (m : ModelType) {c₁ c₂ : Checklist}
    (h : ∀ it ∈ modelItems m, c₁ it.k = c₂ it.k) :
    gotWeight m c₁ = gotWeight m c₂ := by
  unfold gotWeight
  congr 1
  apply List.map_congr_left
  intro it hit
  rw [h it hit]

theorem gotWeight_mono (m : ModelType) {c₁ c₂ : Checklist}
    (h : ∀ j, c₁ j = true → c₂ j = true) :
    gotWeight m c₁ ≤ gotWeight m c₂ := by
  apply List.sum_le_sum
  intro it hit
  by_cases hb : c₁ it.k = true
  · rw [if_pos hb, if_pos (h it.k hb)]
  · rw [if_neg hb]
    split
    · exact weight_nonneg hit
    · exact le_rfl

theorem score_mono (m : ModelType) {c₁ c₂ : Checklist}
    (h : ∀ j, c₁ j = true → c₂ j = true) :
    score m c₁ ≤ score m c₂ := by
  rw [score_eq_jsRound_got, score_eq_jsRound_got]
  exact jsRound_mono (gotWeight_mono m h)

/- ------------------------------------------------------------------ -/
/- Claim C6                                                            -/
/- ------------------------------------------------------------------ -/

/-- C6: for every model and checklist the score is an integer in
[0, 100]; all items false gives 0, all items true gives 100, and two
checklists agreeing on the model's item keys score identically (keys
outside the item set never affect the result). -/
theorem scorer_C6 :
    (∀ (m : ModelType) (c : Checklist), 0 ≤ score m c ∧ score m c ≤ 100)
    ∧ (∀ m : ModelType, score m (fun _ => false) = 0)
    ∧ (∀ m : ModelType, score m (fun _ => true) = 100)
    ∧ (∀ (m : ModelType) (c₁ c₂ : Checklist),
        (∀ it ∈ modelItems m, c₁ it.k = c₂ it.k) → score m c₁ = score m c₂) := by
  refine ⟨fun m c => ⟨?_, ?_⟩, fun m => ?_, fun m => ?_, fun m c₁ c₂ h => ?_⟩
  · rw [score_eq_jsRound_got]
    have h0 : jsRound 0 = 0 := by norm_num [jsRound]
    calc (0 : ℤ) = jsRound 0 := h0.symm
      _ ≤ jsRound (gotWeight m c) := jsRound_mono (gotWeight_nonneg m c)
  · rw [score_eq_jsRound_got]
    have h100 : jsRound 100 = 100 := by norm_num [jsRound]
    calc jsRound (gotWeight m c) ≤ jsRound 100 :=
          jsRound_mono (le_of_le_of_eq (gotWeight_le m c) (totalWeight_eq m))
      _ = 100 := h100
  · have hg : gotWeight m (fun _ => false) = 0 := by
      cases m <;> simp [gotWeight, modelItems, TREND, REBOUND]
    rw [score_eq_jsRound_got, hg]
    norm_num [jsRound]
  · have hg : gotWeight m (fun _ => true) = 100 := by
      cases m <;> norm_num [gotWeight, modelItems, TREND, REBOUND]
    rw [score_eq_jsRound_got, hg]
    norm_num [jsRound]
  · rw [score, score, gotWeight_congr m h]

/-- Witness for C6: the key-agreement clause applied at a concrete model
and two concrete checklists agreeing on the trend item keys. -/
theorem scorer_C6_witness :
    score ModelType.trend (fun _ => false) =
      score ModelType.trend (fun j => j = "notAnItem") :=
  scorer_C6.2.2.2 ModelType.trend (fun _ => false) (fun j => j = "notAnItem")
    (by intro it hit; simp [modelItems, TREND] at hit
        rcases hit with rfl | rfl | rfl | rfl | rfl | rfl | rfl <;> simp)

/- ------------------------------------------------------------------ -/
/- Claim C10                                                           -/
/- ------------------------------------------------------------------ -/

/-- C10: flipping a single checklist key from false to true never
decreases the score, and flipping one from true to false never
increases it. -/
theorem scorer_C10 :
    (∀ (m : ModelType) (c : Checklist) (k : String), c k = false →
        score m c ≤ score m (fun j => if j = k then true else c j))
    ∧ (∀ (m : ModelType) (c : Checklist) (k : String), c k = true →
        score m (fun j => if j = k then false else c j) ≤ score m c) := by
  constructor
  · intro m c k _
    apply score_mono
    intro j hj
    by_cases hjk : j = k <;> simp [hjk, hj]
  · intro m c k _
    apply score_mono
    intro j hj
    by_cases hjk : j = k <;> simp [hjk] at hj ⊢
    exact hj

/-- Witness for C10 at the trend model and the key of its first item. -/
theorem scorer_C10_witness :
    score ModelType.trend (fun _ => false) ≤
      score ModelType.trend (fun j => if j = "maBull" then true else false)
    ∧ score ModelType.trend (fun j => if j = "maBull" then false else true) ≤
      score ModelType.trend (fun _ => true) :=
  ⟨scorer_C10.1 ModelType.trend (fun _ => false) "maBull" rfl,
   scorer_C10.2 ModelType.trend (fun _ => true) "maBull" rfl⟩

/- ------------------------------------------------------------------ -/
/- Position sizer lemmas                                               -/
/- ------------------------------------------------------------------ -/

theorem sizing_core (RM lot RP : ℚ) (hRM : 0 < RM) (hlot : 0 < lot) :
    (∃ k : ℕ,
      ((⌊((if 0 < max 0 RP then ⌊RM / max 0 RP⌋ else 0 : ℤ) : ℚ) / lot⌋ : ℤ) : ℚ) * lot
        = (k : ℚ) * lot)
    ∧ 0 ≤ ((⌊((if 0 < max 0 RP then ⌊RM / max 0 RP⌋ else 0 : ℤ) : ℚ) / lot⌋ : ℤ) : ℚ) * lot
    ∧ (max 0 RP ≤ 0 →
      ((⌊((if 0 < max 0 RP then ⌊RM / max 0 RP⌋ else 0 : ℤ) : ℚ) / lot⌋ : ℤ) : ℚ) * lot = 0)
    ∧ (((⌊((if 0 < max 0 RP then ⌊RM / max 0 RP⌋ else 0 : ℤ) : ℚ) / lot⌋ : ℤ) : ℚ) * lot)
        * max 0 RP ≤ RM := by
  by_cases h : 0 < max 0 RP
  · rw [if_pos h]
    have hrnn : (0 : ℚ) ≤ max 0 RP := le_max_left 0 RP
    have hvnn : (0 : ℤ) ≤ ⌊RM / max 0 RP⌋ :=
      Int.floor_nonneg.mpr (div_nonneg hRM.le hrnn)
    have hqnn : (0 : ℤ) ≤ ⌊((⌊RM / max 0 RP⌋ : ℤ) : ℚ) / lot⌋ :=
      Int.floor_nonneg.mpr (div_nonneg (by exact_mod_cast hvnn) hlot.le)
    have hq_le : ((⌊((⌊RM / max 0 RP⌋ : ℤ) : ℚ) / lot⌋ : ℤ) : ℚ) * lot
        ≤ ((⌊RM / max 0 RP⌋ : ℤ) : ℚ) := by
      have h1 : ((⌊((⌊RM / max 0 RP⌋ : ℤ) : ℚ) / lot⌋ : ℤ) : ℚ)
          ≤ ((⌊RM / max 0 RP⌋ : ℤ) : ℚ) / lot := Int.floor_le _
      calc ((⌊((⌊RM / max 0 RP⌋ : ℤ) : ℚ) / lot⌋ : ℤ) : ℚ) * lot
          ≤ (((⌊RM / max 0 RP⌋ : ℤ) : ℚ) / lot) * lot :=
            mul_le_mul_of_nonneg_right h1 hlot.le
        _ = ((⌊RM / max 0 RP⌋ : ℤ) : ℚ) := div_mul_cancel₀ _ (ne_of_gt hlot)
    have hv_le : ((⌊RM / max 0 RP⌋ : ℤ) : ℚ) * max 0 RP ≤ RM := by
      calc ((⌊RM / max 0 RP⌋ : ℤ) : ℚ) * max 0 RP
          ≤ (RM / max 0 RP) * max 0 RP :=
            mul_le_mul_of_nonneg_right (Int.floor_le _) hrnn
        _ = RM := div_mul_cancel₀ _ (ne_of_gt h)
    refine ⟨⟨(⌊((⌊RM / max 0 RP⌋ : ℤ) : ℚ) / lot⌋).toNat, ?_⟩, ?_, ?_, ?_⟩
    · have hcast : (((⌊((⌊RM / max 0 RP⌋ : ℤ) : ℚ) / lot⌋).toNat : ℕ) : ℚ)
          = ((⌊((⌊RM / max 0 RP⌋ : ℤ) : ℚ) / lot⌋ : ℤ) : ℚ) := by
        exact_mod_cast congrArg (fun z : ℤ => (z : ℚ)) (Int.toNat_of_nonneg hqnn)
      rw [hcast]
    · exact mul_nonneg (by exact_mod_cast hqnn) hlot.le
    · intro hle
      exact absurd h (not_lt.mpr hle)
    · calc ((⌊((⌊RM / max 0 RP⌋ : ℤ) : ℚ) / lot⌋ : ℤ) : ℚ) * lot * max 0 RP
          ≤ ((⌊RM / max 0 RP⌋ : ℤ) : ℚ) * max 0 RP :=
            mul_le_mul_of_nonneg_right hq_le hrnn
        _ ≤ RM := hv_le
  · rw [if_neg h]
    have hz : ((⌊((0 : ℤ) : ℚ) / lot⌋ : ℤ) : ℚ) * lot = 0 := by norm_num
    exact ⟨⟨0, by rw [hz]; norm_num⟩, by rw [hz], fun _ => hz,
      by rw [hz, zero_mul]; exact hRM.le⟩

/- ------------------------------------------------------------------ -/
/- Claim C1                                                            -/
/- ------------------------------------------------------------------ -/

/-- C1: under positive equity, positive max-risk percentage and lot size
at least 1, the suggested size is a non-negative whole number of lots,
it is 0 whenever the per-unit risk is non-positive, and the realized
risk `size * riskPer` never exceeds the risk budget
`equity * maxRiskPct / 100`. -/
theorem position_sizer_C1 (equity maxRiskPct entry stop lotSize : ℚ) (side : Side)
    (feePct exitFeePct slippage : ℚ)
    (he : 0 < equity) (hm : 0 < maxRiskPct) (hl : 1 ≤ lotSize) :
    (∃ k : ℕ,
      (calcSizing equity maxRiskPct entry stop lotSize side feePct exitFeePct slippage).size
        = (k : ℚ) * lotSize)
    ∧ 0 ≤ (calcSizing equity maxRiskPct entry stop lotSize side feePct exitFeePct slippage).size
    ∧ ((calcSizing equity maxRiskPct entry stop lotSize side feePct exitFeePct slippage).riskPer ≤ 0 →
      (calcSizing equity maxRiskPct entry stop lotSize side feePct exitFeePct slippage).size = 0)
    ∧ (calcSizing equity maxRiskPct entry stop lotSize side feePct exitFeePct slippage).size
        * (calcSizing equity maxRiskPct entry stop lotSize side feePct exitFeePct slippage).riskPer
      ≤ (calcSizing equity maxRiskPct entry stop lotSize side feePct exitFeePct slippage).riskMoney
    ∧ (calcSizing equity maxRiskPct entry stop lotSize side feePct exitFeePct slippage).riskMoney
        = equity * (maxRiskPct / 100) := by
  have hlotpos : (0 : ℚ) < lotSize := lt_of_lt_of_le one_pos hl
  have hlot : max 1 (jsOr lotSize 1) = lotSize := by
    rw [jsOr, if_neg (ne_of_gt hlotpos)]
    exact max_eq_right hl
  have hRM : 0 < equity * (maxRiskPct / 100) := by positivity
  simp only [calcSizing, hlot]
  exact ⟨(sizing_core _ lotSize _ hRM hlotpos).1,
    (sizing_core _ lotSize _ hRM hlotpos).2.1,
    (sizing_core _ lotSize _ hRM hlotpos).2.2.1,
    (sizing_core _ lotSize _ hRM hlotpos).2.2.2, trivial⟩

/-- Witness for C1 at the spec's worked example. -/
theorem position_sizer_C1_witness :
    (∃ k : ℕ,
      (calcSizing 100000 1 10 9 100 Side.long 0 0 0).size = (k : ℚ) * 100)
    ∧ 0 ≤ (calcSizing 100000 1 10 9 100 Side.long 0 0 0).size
    ∧ ((calcSizing 100000 1 10 9 100 Side.long 0 0 0).riskPer ≤ 0 →
      (calcSizing 100000 1 10 9 100 Side.long 0 0 0).size = 0)
    ∧ (calcSizing 100000 1 10 9 100 Side.long 0 0 0).size
        * (calcSizing 100000 1 10 9 100 Side.long 0 0 0).riskPer
      ≤ (calcSizing 100000 1 10 9 100 Side.long 0 0 0).riskMoney
    ∧ (calcSizing 100000 1 10 9 100 Side.long 0 0 0).riskMoney = 100000 * (1 / 100) :=
  position_sizer_C1 100000 1 10 9 100 Side.long 0 0 0
    (by norm_num) (by norm_num) (by norm_num)

/- ------------------------------------------------------------------ -/
/- Claim C2                                                            -/
/- ------------------------------------------------------------------ -/

/-- C2 counterexample: with a zero side-relative price risk (entry =
stop = 10, long) but a 1% fee, the sizing result is NOT the zero-size,
zero-risk outcome — the transaction-cost term keeps riskPer positive. -/
theorem position_sizer_C2_counterexample :
    ((10 : ℚ) - 10) ≤ 0
    ∧ (calcSizing 100000 1 10 10 1 Side.long 1 0 0).size ≠ 0
    ∧ (calcSizing 100000 1 10 10 1 Side.long 1 0 0).riskPer ≠ 0 := by
  norm_num [calcSizing, jsOr]

/-- C2 amended: with zero fee, exit-fee and slippage parameters, a
non-positive side-relative price risk yields the zero-size, zero-risk
outcome. -/
theorem position_sizer_C2_amended (equity maxRiskPct entry stop lotSize : ℚ)
    (side : Side)
    (h : (if side = Side.long then entry - stop else stop - entry) ≤ 0) :
    (calcSizing equity maxRiskPct entry stop lotSize side 0 0 0).size = 0
    ∧ (calcSizing equity maxRiskPct entry stop lotSize side 0 0 0).riskPer = 0 := by
  have hrp : max 0 ((if side = Side.long then jsOr entry 0 - jsOr stop 0
      else jsOr stop 0 - jsOr entry 0) +
      (jsOr entry 0 * (jsOr 0 0 / 100) + jsOr stop 0 * (jsOr 0 0 / 100) +
        jsOr stop 0 * (jsOr 0 0 / 100) + 2 * jsOr 0 0)) = 0 := by
    rw [jsOr_zero, jsOr_zero, jsOr_zero]
    apply max_eq_left
    rcases h' : side with _ | _ <;> rw [h'] at h <;> simp_all
  simp only [calcSizing, hrp]
  norm_num

/-- Witness for C2 amended: a long draft whose stop sits above entry. -/
theorem position_sizer_C2_witness :
    (calcSizing 100000 1 5 7 100 Side.long 0 0 0).size = 0
    ∧ (calcSizing 100000 1 5 7 100 Side.long 0 0 0).riskPer = 0 :=
  position_sizer_C2_amended 100000 1 5 7 100 Side.long (by norm_num)

/- ------------------------------------------------------------------ -/
/- Claim C9                                                            -/
/- ------------------------------------------------------------------ -/

/-- C9: the spec's worked sizing example — long, entry 10, stop 9,
equity 100000, 1% max risk, lot 100, zero costs — gives riskPer 1,
budget 1000, size 1000 and a 10% position. -/
theorem position_sizer_C9 :
    calcSizing 100000 1 10 9 100 Side.long 0 0 0 = ⟨1, 1000, 1000, 10⟩ := by
  norm_num [calcSizing, jsOr]

/- ------------------------------------------------------------------ -/
/- Claim C5                                                            -/
/- ------------------------------------------------------------------ -/

/-- C5 counterexample: with the long/stop ordering inverted (entry 10,
stop 12) the cost-aware `calcR` returns 0 while the simplified formula
`(exit - entry) / |entry - stop|` gives 2, so the two variants do not
coincide on all inputs. -/
theorem outcome_calc_C5_counterexample :
    calcR 10 12 14 Side.long 0 0 0 ≠ ((14 : ℚ) - 10) / |(10 : ℚ) - 12| := by
  norm_num [calcR, calcPnL, calcCosts]

/-- C5 amended: specialized to side long and zero costs, the cost-aware
`calcPnL` agrees with the simplified variant's `calcPnL` on every input,
and the cost-aware `calcR` agrees with the simplified formula
`(exit - entry) / |entry - stop|` whenever the long entry/stop invariant
`stop < entry` holds and entry and exit are nonzero. -/
theorem outcome_calc_C5_amended :
    (∀ t : PTrade,
      calcPnL t.entry t.exit t.sizeShares Side.long 0 0 0 = pageCalcPnL t)
    ∧ (∀ entry stop exit : ℚ, stop < entry → entry ≠ 0 → exit ≠ 0 →
      calcR entry stop exit Side.long 0 0 0 = (exit - entry) / |entry - stop|) := by
  constructor
  · intro t
    simp only [calcPnL, pageCalcPnL, calcCosts]
    split_ifs with h
    · rfl
    · norm_num
  · intro entry stop exit h he hx
    have hrp : ¬(entry - stop = 0 ∨ entry - stop ≤ 0) := by
      push_neg
      exact ⟨sub_ne_zero.mpr (ne_of_gt h), by linarith⟩
    simp only [calcR, if_true]
    rw [if_neg hrp]
    have hpnl : calcPnL entry exit 1 Side.long 0 0 0 = exit - entry := by
      rw [calcPnL, if_neg (by push_neg; exact ⟨he, hx, one_ne_zero⟩)]
      norm_num [calcCosts]
    rw [hpnl, abs_of_pos (by linarith : (0 : ℚ) < entry - stop)]

/-- Witness for C5 amended: the spec's worked example entry 10, stop 9,
exit 12. -/
theorem outcome_calc_C5_witness :
    calcR 10 9 12 Side.long 0 0 0 = ((12 : ℚ) - 10) / |(10 : ℚ) - 9| :=
  outcome_calc_C5_amended.2 10 9 12 (by norm_num) (by norm_num) (by norm_num)

/- ------------------------------------------------------------------ -/
/- Portfolio aggregator lemmas                                         -/
/- ------------------------------------------------------------------ -/

theorem orderedInsert_append_singleton {α : Type} (r : α → α → Prop)
    [DecidableRel r] (x t : α) (l : List α) (h : r x t) :
    List.orderedInsert r x (l ++ [t]) = List.orderedInsert r x l ++ [t] := by
  induction l with
  | nil => simp [List.orderedInsert, h]
  | cons b l ih =>
    simp only [List.cons_append, List.orderedInsert]
    split <;> simp [ih]

theorem insertionSort_append_singleton {α : Type} (r : α → α → Prop)
    [DecidableRel r] (t : α) (l : List α) (h : ∀ x ∈ l, r x t) :
    List.insertionSort r (l ++ [t]) = List.insertionSort r l ++ [t] := by
  induction l with
  | nil => simp
  | cons a l ih =>
    simp only [List.cons_append, List.insertionSort, List.append_eq]
    rw [ih (fun x hx => h x (List.mem_cons_of_mem a hx)),
      orderedInsert_append_singleton r a t _ (h a (List.mem_cons_self a l))]

theorem closedOf_append_skip (trades : List PTrade) (t : PTrade)
    (h : closedFilter t = false) :
    closedOf (trades ++ [t]) = closedOf trades := by
  simp [closedOf, List.filter_append, h]

theorem closedOf_append_last (trades : List PTrade) (t : PTrade)
    (hp : closedFilter t = true)
    (hord : ∀ u ∈ trades, u.updatedAt ≤ t.updatedAt) :
    closedOf (trades ++ [t]) = closedOf trades ++ [t] := by
  simp only [closedOf, List.filter_append, sortClosed]
  rw [show List.filter closedFilter [t] = [t] from by simp [hp]]
  exact insertionSort_append_singleton _ t _
    (fun x hx => hord x (List.mem_of_mem_filter hx))

theorem ddRun_append (eq0 : ℚ) (ps : List ℚ) (p : ℚ) :
    ddRun eq0 (ps ++ [p]) = ddStep (ddRun eq0 ps) p := by
  simp [ddRun, List.foldl_append]

theorem ddRun_maxDD_mono (eq0 : ℚ) (ps : List ℚ) (p : ℚ) :
    (ddRun eq0 ps).2.2 ≤ (ddRun eq0 (ps ++ [p])).2.2 := by
  rw [ddRun_append]
  exact le_max_left _ _

theorem foldl_maxDD_nonneg (ps : List ℚ) :
    ∀ acc : ℚ × ℚ × ℚ, 0 ≤ acc.2.2 → 0 ≤ (ps.foldl ddStep acc).2.2 := by
  induction ps with
  | nil => intro acc h; exact h
  | cons p rest ih =>
    intro acc h
    rw [List.foldl_cons]
    exact ih _ (le_trans h (le_max_left _ _))

theorem foldl_maxDD_le_one (ps : List ℚ) :
    ∀ acc : ℚ × ℚ × ℚ, acc.2.2 ≤ 1 → runningNonneg acc.1 ps →
      (ps.foldl ddStep acc).2.2 ≤ 1 := by
  induction ps with
  | nil => intro acc h _; exact h
  | cons p rest ih =>
    intro acc h hpre
    rw [List.foldl_cons]
    refine ih _ ?_ hpre.2
    show max acc.2.2 (if 0 < max acc.2.1 (acc.1 + p)
        then (max acc.2.1 (acc.1 + p) - (acc.1 + p)) / max acc.2.1 (acc.1 + p)
        else 0) ≤ 1
    apply max_le h
    split
    · rename_i hpk
      rw [div_le_one hpk]
      have h0 : 0 ≤ acc.1 + p := hpre.1
      linarith
    · norm_num

theorem runningNonneg_of_curve (ps : List ℚ) :
    ∀ (eq0 : ℚ) (i0 : ℕ),
      (∀ pt ∈ curveFrom eq0 i0 ps, 0 ≤ pt.equity) → runningNonneg eq0 ps := by
  induction ps with
  | nil => intro _ _ _; trivial
  | cons p rest ih =>
    intro eq0 i0 h
    refine ⟨h ⟨i0, eq0 + p⟩ (by simp [curveFrom]), ?_⟩
    exact ih (eq0 + p) (i0 + 1) (fun pt hpt => h pt (by simp [curveFrom, hpt]))

/- ------------------------------------------------------------------ -/
/- Claim C3                                                            -/
/- ------------------------------------------------------------------ -/

/-- C3 counterexample: a single consistent closed trade (entry 3, exit
1, 100 shares, pnl −200 = (1−3)·100) on starting equity 100 drives the
running equity to −100, so maxDrawdownPct = 200/100 = 2 > 1 — the
claimed upper bound of 1 fails. -/
theorem portfolio_aggregator_C3_counterexample :
    1 < (computeKPIs [⟨3, 2, 1, 100, -200, -2, Status.closed, 1⟩] 100).maxDrawdownPct := by
  norm_num [computeKPIs, maxDDOf, pnlsOf, closedOf, sortClosed, closedFilter,
    jsOr, ddRun, ddStep, List.filter]

/-- C3 amended: the equity-curve maximum drawdown is monotonically
non-decreasing as a later trade is appended, and is always ≥ 0; the
upper bound of 1 holds under the additional hypothesis that every point
of the equity curve is non-negative (a closed trade whose loss exceeds
the running equity pushes the drawdown above 1). -/
theorem portfolio_aggregator_C3_amended :
    (∀ (startingEquity : ℚ) (trades : List PTrade) (t : PTrade),
      (∀ u ∈ trades, u.updatedAt ≤ t.updatedAt) →
      (computeKPIs trades startingEquity).maxDrawdownPct ≤
        (computeKPIs (trades ++ [t]) startingEquity).maxDrawdownPct)
    ∧ (∀ (startingEquity : ℚ) (trades : List PTrade),
      0 ≤ (computeKPIs trades startingEquity).maxDrawdownPct)
    ∧ (∀ (startingEquity : ℚ) (trades : List PTrade),
      (∀ pt ∈ (computeKPIs trades startingEquity).equityCurve, 0 ≤ pt.equity) →
      (computeKPIs trades startingEquity).maxDrawdownPct ≤ 1) := by
  refine ⟨fun e0 trades t hord => ?_, fun e0 trades => ?_, fun e0 trades h => ?_⟩
  · show maxDDOf e0 trades ≤ maxDDOf e0 (trades ++ [t])
    rcases hp : closedFilter t with _ | _
    · rw [maxDDOf, maxDDOf, pnlsOf, pnlsOf, closedOf_append_skip trades t hp]
    · rw [maxDDOf, maxDDOf, pnlsOf, pnlsOf, closedOf_append_last trades t hp hord,
        List.map_append]
      exact ddRun_maxDD_mono _ _ _
  · exact foldl_maxDD_nonneg _ _ le_rfl
  · have hpre : runningNonneg (jsOr e0 0) (pnlsOf trades) :=
      runningNonneg_of_curve _ _ 1
        (fun pt hpt => h pt (List.mem_cons_of_mem _ hpt))
    exact foldl_maxDD_le_one _ _ (by norm_num) hpre

/-- Witness for C3 amended: appending a profitable closed trade to an
empty journal; the curve stays non-negative and the drawdown stays in
[0, 1]. -/
theorem portfolio_aggregator_C3_witness :
    ((computeKPIs [] 100).maxDrawdownPct ≤
      (computeKPIs ([] ++ [⟨10, 9, 12, 100, 200, 2, Status.closed, 1⟩]) 100).maxDrawdownPct)
    ∧ 0 ≤ (computeKPIs [⟨10, 9, 12, 100, 200, 2, Status.closed, 1⟩] 100).maxDrawdownPct
    ∧ (computeKPIs [⟨10, 9, 12, 100, 200, 2, Status.closed, 1⟩] 100).maxDrawdownPct ≤ 1 :=
  ⟨portfolio_aggregator_C3_amended.1 100 [] ⟨10, 9, 12, 100, 200, 2, Status.closed, 1⟩
      (by intro u hu; simp at hu),
   portfolio_aggregator_C3_amended.2.1 100 [⟨10, 9, 12, 100, 200, 2, Status.closed, 1⟩],
   portfolio_aggregator_C3_amended.2.2 100 [⟨10, 9, 12, 100, 200, 2, Status.closed, 1⟩]
      (by intro pt hpt
          norm_num [computeKPIs, curveOf, curveFrom, pnlsOf, closedOf, sortClosed,
            closedFilter, jsOr, List.filter] at hpt
          rcases hpt with rfl | rfl <;> norm_num)⟩

/- ------------------------------------------------------------------ -/
/- Claim C7                                                            -/
/- ------------------------------------------------------------------ -/

/-- C7: the win/loss ratio is +infinity exactly when the average loss is
zero and the average win positive; it is 0 when both are zero, and
|avgWin/avgLoss| when the average loss is nonzero. The profit factor
behaves the same with gross win and gross loss magnitude. No zero
denominator is ever evaluated — every case returns an explicit value. -/
theorem portfolio_aggregator_C7 (trades : List PTrade) (startingEquity : ℚ) :
    ( KPIs.winLossRatio (computeKPIs trades startingEquity) = JSNum.inf ↔
      (avgLossOf trades = 0 ∧ 0 < avgWinOf trades))
    ∧ ((avgLossOf trades = 0 ∧ avgWinOf trades = 0) →
      KPIs.winLossRatio (computeKPIs trades startingEquity) = JSNum.fin 0)
    ∧ (avgLossOf trades ≠ 0 →
      KPIs.winLossRatio (computeKPIs trades startingEquity) =
        JSNum.fin |avgWinOf trades / avgLossOf trades|)
    ∧ ( KPIs.profitFactor (computeKPIs trades startingEquity) = JSNum.inf ↔
      (grossLossAbsOf trades = 0 ∧ 0 < grossWinOf trades))
    ∧ ((grossLossAbsOf trades = 0 ∧ grossWinOf trades = 0) →
      KPIs.profitFactor (computeKPIs trades startingEquity) = JSNum.fin 0)
    ∧ (grossLossAbsOf trades ≠ 0 →
      KPIs.profitFactor (computeKPIs trades startingEquity) =
        JSNum.fin (grossWinOf trades / grossLossAbsOf trades)) := by
  refine ⟨?_, ?_, ?_, ?_, ?_, ?_⟩ <;> simp only [computeKPIs]
  · split_ifs with h1 h2 <;> simp_all
  · intro hb
    rw [if_pos hb.1, if_neg (by rw [hb.2]; exact lt_irrefl 0)]
  · intro hne
    rw [if_neg hne]
  · split_ifs with h1 h2 <;> simp_all
  · intro hb
    rw [if_pos hb.1, if_neg (by rw [hb.2]; exact lt_irrefl 0)]
  · intro hne
    rw [if_neg hne]

/-- Witness for C7 on the empty journal, where both ratios are the
finite 0 (both aggregates zero). -/
theorem portfolio_aggregator_C7_witness :
    KPIs.winLossRatio (computeKPIs [] 100) = JSNum.fin 0
    ∧ KPIs.profitFactor (computeKPIs [] 100) = JSNum.fin 0 :=
  ⟨(portfolio_aggregator_C7 [] 100).2.1
      (by norm_num [avgLossOf, avgWinOf, lossesOf, winsOf, closedOf, sortClosed,
        List.filter]),
   (portfolio_aggregator_C7 [] 100).2.2.2.2.1
      (by norm_num [grossLossAbsOf, grossWinOf, lossesOf, winsOf, closedOf,
        sortClosed, List.filter])⟩

/- ------------------------------------------------------------------ -/
/- Claim C8                                                            -/
/- ------------------------------------------------------------------ -/

/-- C8: aggregating a journal with no closed trades yields zero closed
count, zero win rate, a finite-zero profit factor, zero average R, and
an equity curve holding the single starting-equity point. -/
theorem portfolio_aggregator_C8 (trades : List PTrade) (startingEquity : ℚ)
    (h : ∀ t ∈ trades, t.status ≠ Status.closed) :
    (computeKPIs trades startingEquity).closedCount = 0
    ∧ (computeKPIs trades startingEquity).winRate = 0
    ∧ KPIs.profitFactor (computeKPIs trades startingEquity) = JSNum.fin 0
    ∧ (computeKPIs trades startingEquity).avgR = 0
    ∧ (computeKPIs trades startingEquity).equityCurve = [⟨0, startingEquity⟩] := by
  have hfil : trades.filter closedFilter = [] := by
    rw [List.filter_eq_nil_iff]
    intro t ht
    simp [closedFilter]
    intro hc
    exact absurd hc (h t ht)
  have hclosed : closedOf trades = [] := by
    simp [closedOf, hfil, sortClosed]
  refine ⟨?_, ?_, ?_, ?_, ?_⟩ <;>
    simp [computeKPIs, hclosed, winsOf, lossesOf, avgWinOf, avgLossOf, grossWinOf,
      grossLossAbsOf, curveOf, pnlsOf, curveFrom, jsOr_zero]

/-- Witness for C8: a journal holding one still-open trade. -/
theorem portfolio_aggregator_C8_witness :
    (computeKPIs [⟨10, 9, 12, 100, 0, 0, Status.«open», 1⟩] 100).closedCount = 0
    ∧ (computeKPIs [⟨10, 9, 12, 100, 0, 0, Status.«open», 1⟩] 100).winRate = 0
    ∧ KPIs.profitFactor (computeKPIs [⟨10, 9, 12, 100, 0, 0, Status.«open», 1⟩] 100)
        = JSNum.fin 0
    ∧ (computeKPIs [⟨10, 9, 12, 100, 0, 0, Status.«open», 1⟩] 100).avgR = 0
    ∧ (computeKPIs [⟨10, 9, 12, 100, 0, 0, Status.«open», 1⟩] 100).equityCurve
        = [⟨0, 100⟩] :=
  portfolio_aggregator_C8 [⟨10, 9, 12, 100, 0, 0, Status.«open», 1⟩] 100
    (by intro t ht; simp at ht; subst ht; simp)

/- ------------------------------------------------------------------ -/
/- Claim C4                                                            -/
/- ------------------------------------------------------------------ -/

/-- C4: a draft whose stop is missing/non-positive, or whose stop/entry
ordering violates the side invariant (stop ≥ entry for long, stop ≤
entry for short), is rejected by addTrade: a validation message is
produced and the trade collection is returned unchanged. -/
theorem trade_creation_C4 (settings : Settings) (d : Draft) (now : ℤ)
    (newId : String) (trades : List V2Trade)
    (h : d.stop ≤ 0 ∨ (d.side = Side.long ∧ d.entry ≤ d.stop)
      ∨ (d.side = Side.short ∧ d.stop ≤ d.entry)) :
    (addTrade settings d now newId trades).1 = trades
    ∧ (addTrade settings d now newId trades).2.isSome = true := by
  unfold addTrade
  split_ifs with h1 h2 h3 h4 h5
  · exact ⟨rfl, rfl⟩
  · exact ⟨rfl, rfl⟩
  · exact ⟨rfl, rfl⟩
  · exact ⟨rfl, rfl⟩
  · exact ⟨rfl, rfl⟩
  · exfalso
    rcases h with h' | h' | h'
    · exact h2 (Or.inr h')
    · exact h5 h'
    · exact h4 h'

/-- Witness for C4: a long draft whose stop equals its entry is rejected
and the (empty) collection is untouched. -/
theorem trade_creation_C4_witness :
    (addTrade ⟨100000, 1, 100⟩
        ⟨"600089", Side.long, ModelType.trend, 10, 10, 0, 0, 0, fun _ => false⟩
        0 sampleId []).1 = []
    ∧ (addTrade ⟨100000, 1, 100⟩
        ⟨"600089", Side.long, ModelType.trend, 10, 10, 0, 0, 0, fun _ => false⟩
        0 sampleId []).2.isSome = true :=
  trade_creation_C4 ⟨100000, 1, 100⟩
    ⟨"600089", Side.long, ModelType.trend, 10, 10, 0, 0, 0, fun _ => false⟩
    0 sampleId [] (Or.inr (Or.inl ⟨rfl, le_refl 10⟩))

end Trading
